import Mathlib

/-!
Verification of the live-translation relay (`src/services/AudioInterceptor.ts`,
`src/services/StreamSocket.ts`, `src/routes/intercept.ts`).

The TypeScript event handlers are embedded as pure functions on an explicit
state record.  Audio payloads are modelled at the level of their decoded bytes
(a base64 round trip is the identity on whole bytes), wall-clock instants are
naturals (milliseconds since epoch), and JavaScript arithmetic on durations is
carried out in `ℤ`/`ℚ`.  Each handler returns the successor state together
with the list of externally visible commands it manages to deliver (a send
attempted on a closed or absent socket is skipped by the source, so it simply
produces no command here).
-/

namespace LiveTranslation

/-- Decoded bytes of a base64 audio payload. -/
abbrev AudioPayload := List Nat

/-- The two call legs. -/
inductive Leg
  | caller
  | agent
deriving DecidableEq

/-- JavaScript truthiness of an optional numeric timestamp: `undefined` and
`0` are falsy.  The source tests timestamps with `!x`. -/
def truthy : Option Nat → Bool
  | none => false
  | some n => n != 0

/-- `BufferedMessage` from `AudioInterceptor.ts`: one latency sample. -/
structure BufferedMessage where
  message_id : String
  first_audio_buffer_add_time : Option Nat := none
  vad_speech_stopped_time : Nat
deriving DecidableEq

/-- Per-leg output pacing state (`#callerOutputState` / `#agentOutputState`). -/
structure OutputState where
  currentStart : Option Nat
  currentDurationMs : ℚ
  lastStart : Option Nat
  lastDurationMs : Option ℚ
deriving DecidableEq

/-- Initial output pacing state, as written in the field initializers. -/
def initOutputState : OutputState :=
  { currentStart := none, currentDurationMs := 0, lastStart := none, lastDurationMs := none }

/-- Per-leg translation / speech-timing state and latency-sample log
(`#…TranslationActive`, `#…ActiveResponseId`, `#…TranslationStartTime`,
`#…SpeechStartTimestamp`, `#…LastSpeechTimestamp`, `#…Messages`). -/
structure LegState where
  translationActive : Bool
  activeResponseId : Option String
  translationStartTime : Option Nat
  speechStartTimestamp : Option Nat
  lastSpeechTimestamp : Option Nat
  messages : List BufferedMessage
deriving DecidableEq

/-- Initial per-leg state, as written in the field initializers. -/
def initLegState : LegState :=
  { translationActive := false
    activeResponseId := none
    translationStartTime := none
    speechStartTimestamp := none
    lastSpeechTimestamp := none
    messages := [] }

/-- The whole `AudioInterceptor` instance.  Stream sockets are `Option Bool`
(`none` = field is unset/null, `some b` = attached with `b` = underlying
connection open); the two OpenAI sockets are created in the constructor, so
only their open status and heartbeat status are tracked. -/
structure InterceptorState where
  forwardBeforeTranslation : Bool
  callerSocket : Option Bool
  agentSocket : Option Bool
  callerOpenAIOpen : Bool
  agentOpenAIOpen : Bool
  callerPingActive : Bool
  agentPingActive : Bool
  agentFirstAudioTime : Option Nat
  caller : LegState
  agent : LegState
  callerOutputState : OutputState
  agentOutputState : OutputState
deriving DecidableEq

/-- State right after the constructor ran (`setupOpenAISockets` starts both
heartbeats; the stream sockets are attached later through the setters). -/
def initState (fwd callerOpen agentOpen : Bool) : InterceptorState :=
  { forwardBeforeTranslation := fwd
    callerSocket := none
    agentSocket := none
    callerOpenAIOpen := callerOpen
    agentOpenAIOpen := agentOpen
    callerPingActive := true
    agentPingActive := true
    agentFirstAudioTime := none
    caller := initLegState
    agent := initLegState
    callerOutputState := initOutputState
    agentOutputState := initOutputState }

/-- Externally visible commands actually delivered by a handler. -/
inductive Action
  | sendToTransport (dest : Leg) (payload : AudioPayload)
  | clearTransport (dest : Leg)
  | openAIAppend (leg : Leg) (payload : AudioPayload)
  | openAIClear (leg : Leg)
  | closeTransport (dest : Leg)
  | closeOpenAI (leg : Leg)
  | reportLatency (leg : Leg) (value : ℚ)
deriving DecidableEq

/-- Messages from the translation backend that the handlers inspect
(`OpenAIMessage.type`); everything else falls into `otherEvent`. -/
inductive OpenAIEvent
  | responseCreated (responseId : Option String)
  | responseDone
  | responseAudioDone
  | speechStarted
  | speechStopped (eventId : String)
  | audioDelta (delta : AudioPayload)
  | otherEvent
deriving DecidableEq

/-- `sendMessageToOpenAI`: the message goes out only while the socket is
open; otherwise the source logs an error and drops it. -/
def sendMessageToOpenAI (isOpen : Bool) (a : Action) : List Action :=
  if isOpen then [a] else []

/-- `alignAudioFrames`: truncate the decoded payload to the largest multiple
of the 8-byte frame size; a chunk shorter than one frame is returned as-is.
(The base64 decode of `Buffer.from` never throws, so the catch branch of the
source is unreachable at this level of modelling.) -/
def alignAudioFrames (audioData : AudioPayload) : AudioPayload :=
  let frameSize := 8
  let alignedSize := audioData.length / frameSize * frameSize
  if alignedSize = 0 then audioData
  else audioData.take alignedSize

/-- `sendAlignedAudio`: deliver the frame-aligned payload when the
destination stream socket is attached and open; otherwise skip silently.
(The alignment cannot fail in the byte-level model, so the fallback branch
of the source is unreachable.) -/
def sendAlignedAudio (socket : Option Bool) (dest : Leg) (payload : AudioPayload) :
    List Action :=
  match socket with
  | some true => [Action.sendToTransport dest (alignAudioFrames payload)]
  | _ => []

/-- Modelled from the spec: `StreamSocket.clear` (`requestRemoteBufferClear`)
is called by `sendTranslationOutput` but its body is missing from the sources
under `src/`; per the spec it instructs the remote playback endpoint to
discard queued audio, and a send attempted on a closed or absent connection
is skipped. -/
def requestRemoteBufferClear (socket : Option Bool) (dest : Leg) : List Action :=
  match socket with
  | some true => [Action.clearTransport dest]
  | _ => []

/-- `sendTranslationOutput`: start a new pacing segment when none is current
(clearing the remote buffer first when the previous segment has already
finished playing), account the chunk's duration, and send it aligned. -/
def sendTranslationOutput (socket : Option Bool) (dest : Leg) (audioPayload : AudioPayload)
    (state : OutputState) (now : Nat) : OutputState × List Action :=
  let durationMs : ℚ := (audioPayload.length : ℚ) / 8000 * 1000
  if state.currentStart = none then
    let clearActs :=
      match state.lastStart, state.lastDurationMs with
      | some ls, some ld =>
          if (ls : ℚ) + ld ≤ (now : ℚ) then requestRemoteBufferClear socket dest else []
      | _, _ => []
    ({ state with currentStart := some now, currentDurationMs := 0 + durationMs },
      clearActs ++ sendAlignedAudio socket dest audioPayload)
  else
    ({ state with currentDurationMs := state.currentDurationMs + durationMs },
      sendAlignedAudio socket dest audioPayload)

/-- `finalizeTranslationOutput`: copy `current*` into `last*` when a segment
is in progress, then reset `current*`. -/
def finalizeTranslationOutput (state : OutputState) : OutputState :=
  let state1 :=
    match state.currentStart with
    | some cs => { state with lastStart := some cs, lastDurationMs := some state.currentDurationMs }
    | none => state
  { state1 with currentStart := none, currentDurationMs := 0 }

/-- `trackTranslationTiming`: with both timing anchors present (JS-truthy),
compute the translation delay and clear the leg's own input buffer when it
exceeds 5000 ms; with an anchor missing, warn and skip. -/
def trackTranslationTiming (speechStartTimestamp translationStartTime : Option Nat)
    (openAIOpen : Bool) (leg : Leg) (currentTime : Nat) : List Action :=
  if truthy speechStartTimestamp && truthy translationStartTime then
    let translationDelay : ℤ := (currentTime : ℤ) - (translationStartTime.getD 0 : ℤ)
    if 5000 < translationDelay then
      sendMessageToOpenAI openAIOpen (Action.openAIClear leg)
    else []
  else []

/-- `reportOnSocketTimeToFirstAudioBufferAdd`: mean of
`first_audio_buffer_add_time - vad_speech_stopped_time` over the samples
whose chunk time is recorded (`!== undefined`); `0` when the list is empty
or no sample qualifies. -/
def reportOnSocketTimeToFirstAudioBufferAdd (messages : List BufferedMessage) : ℚ :=
  if messages.length = 0 then 0
  else
    let filtered := messages.filter fun m => m.first_audio_buffer_add_time.isSome
    if filtered.length = 0 then 0
    else
      let totalTime : ℚ := filtered.foldl
        (fun acc m =>
          acc + (((m.first_audio_buffer_add_time.getD 0 : ℤ) - (m.vad_speech_stopped_time : ℤ) : ℤ) : ℚ))
        0
      totalTime / (filtered.length : ℚ)

/-- `translateAndForwardCallerAudio`: record speech timing, pass the chunk
through to the agent transport when allowed, and forward it to the caller's
translation connection. -/
def translateAndForwardCallerAudio (s : InterceptorState) (payload : AudioPayload)
    (now : Nat) : InterceptorState × List Action :=
  let caller1 :=
    if truthy s.caller.speechStartTimestamp then s.caller
    else { s.caller with speechStartTimestamp := some now }
  let caller2 := { caller1 with lastSpeechTimestamp := some now }
  let passActs :=
    if s.forwardBeforeTranslation && !s.caller.translationActive then
      sendAlignedAudio s.agentSocket Leg.agent payload
    else []
  let appendActs := sendMessageToOpenAI s.callerOpenAIOpen (Action.openAIAppend Leg.caller payload)
  ({ s with caller := caller2 }, passActs ++ appendActs)

/-- `translateAndForwardAgentAudio`: like the caller side, but translation
forwarding starts only one second after the first agent audio was heard. -/
def translateAndForwardAgentAudio (s : InterceptorState) (payload : AudioPayload)
    (now : Nat) : InterceptorState × List Action :=
  let agent1 :=
    if truthy s.agent.speechStartTimestamp then s.agent
    else { s.agent with speechStartTimestamp := some now }
  let agent2 := { agent1 with lastSpeechTimestamp := some now }
  let passActs :=
    if s.forwardBeforeTranslation && !s.agent.translationActive then
      sendAlignedAudio s.callerSocket Leg.caller payload
    else []
  if truthy s.agentFirstAudioTime then
    if 1000 ≤ (now : ℤ) - (s.agentFirstAudioTime.getD 0 : ℤ) then
      ({ s with agent := agent2 },
        passActs ++ sendMessageToOpenAI s.agentOpenAIOpen (Action.openAIAppend Leg.agent payload))
    else ({ s with agent := agent2 }, passActs)
  else ({ s with agent := agent2, agentFirstAudioTime := some now }, passActs)

/-- Mark the newest latency sample's first-chunk time when it is still
JS-falsy (the `response.audio.delta` bookkeeping). -/
def markFirstAudioTime (messages : List BufferedMessage) (currentTime : Nat) :
    List BufferedMessage :=
  match messages.getLast? with
  | none => messages
  | some last =>
      if truthy last.first_audio_buffer_add_time then messages
      else messages.dropLast ++ [{ last with first_audio_buffer_add_time := some currentTime }]

/-- The `response.done` / `response.audio.done` branch of the caller message
handler: deactivate, drop the response id and timing anchors, finalize the
agent-side output pacing state. -/
def handleCallerFinish (s : InterceptorState) : InterceptorState × List Action :=
  ({ s with
      caller := { s.caller with
        translationActive := false
        activeResponseId := none
        translationStartTime := none
        speechStartTimestamp := none
        lastSpeechTimestamp := none }
      agentOutputState := finalizeTranslationOutput s.agentOutputState }, [])

/-- The `response.done` / `response.audio.done` branch of the agent message
handler. -/
def handleAgentFinish (s : InterceptorState) : InterceptorState × List Action :=
  ({ s with
      agent := { s.agent with
        translationActive := false
        activeResponseId := none
        translationStartTime := none
        speechStartTimestamp := none
        lastSpeechTimestamp := none }
      callerOutputState := finalizeTranslationOutput s.callerOutputState }, [])

/-- The caller-socket `message` listener from `setupOpenAISockets`. -/
def handleCallerOpenAIMessage (s : InterceptorState) (ev : OpenAIEvent) (currentTime : Nat) :
    InterceptorState × List Action :=
  match ev with
  | .responseCreated rid =>
      ({ s with caller := { s.caller with
            translationActive := true
            activeResponseId := rid
            translationStartTime := some currentTime } }, [])
  | .responseDone => handleCallerFinish s
  | .responseAudioDone => handleCallerFinish s
  | .speechStarted => (s, [])
  | .speechStopped eid =>
      ({ s with caller := { s.caller with
            messages := s.caller.messages ++
              [{ message_id := eid, vad_speech_stopped_time := currentTime }] } },
        sendMessageToOpenAI s.callerOpenAIOpen (Action.openAIClear Leg.caller))
  | .audioDelta delta =>
      let msgs := markFirstAudioTime s.caller.messages currentTime
      let trackActs := trackTranslationTiming s.caller.speechStartTimestamp
        s.caller.translationStartTime s.callerOpenAIOpen Leg.caller currentTime
      let out := sendTranslationOutput s.agentSocket Leg.agent delta s.agentOutputState currentTime
      ({ s with caller := { s.caller with messages := msgs }, agentOutputState := out.1 },
        trackActs ++ out.2)
  | .otherEvent => (s, [])

/-- The agent-socket `message` listener from `setupOpenAISockets`. -/
def handleAgentOpenAIMessage (s : InterceptorState) (ev : OpenAIEvent) (currentTime : Nat) :
    InterceptorState × List Action :=
  match ev with
  | .responseCreated rid =>
      ({ s with agent := { s.agent with
            translationActive := true
            activeResponseId := rid
            translationStartTime := some currentTime } }, [])
  | .responseDone => handleAgentFinish s
  | .responseAudioDone => handleAgentFinish s
  | .speechStarted => (s, [])
  | .speechStopped eid =>
      ({ s with agent := { s.agent with
            messages := s.agent.messages ++
              [{ message_id := eid, vad_speech_stopped_time := currentTime }] } },
        sendMessageToOpenAI s.agentOpenAIOpen (Action.openAIClear Leg.agent))
  | .audioDelta delta =>
      let msgs := markFirstAudioTime s.agent.messages currentTime
      let trackActs := trackTranslationTiming s.agent.speechStartTimestamp
        s.agent.translationStartTime s.agentOpenAIOpen Leg.agent currentTime
      let out := sendTranslationOutput s.callerSocket Leg.caller delta s.callerOutputState currentTime
      ({ s with agent := { s.agent with messages := msgs }, callerOutputState := out.1 },
        trackActs ++ out.2)
  | .otherEvent => (s, [])

/-- One inbound event of the whole session: a media chunk on either leg, or
a backend message on either leg's translation connection. -/
inductive Event
  | callerMedia (payload : AudioPayload)
  | agentMedia (payload : AudioPayload)
  | callerBackend (ev : OpenAIEvent)
  | agentBackend (ev : OpenAIEvent)
deriving DecidableEq

/-- Dispatch one timestamped event to its handler. -/
def step (s : InterceptorState) (p : Event × Nat) : InterceptorState × List Action :=
  match p.1 with
  | .callerMedia payload => translateAndForwardCallerAudio s payload p.2
  | .agentMedia payload => translateAndForwardAgentAudio s payload p.2
  | .callerBackend ev => handleCallerOpenAIMessage s ev p.2
  | .agentBackend ev => handleAgentOpenAIMessage s ev p.2

/-- Fold a whole timestamped event sequence through the interceptor. -/
def foldEvents (s : InterceptorState) : List (Event × Nat) → InterceptorState
  | [] => s
  | p :: rest => foldEvents (step s p).1 rest

/-- `close`: shut both stream sockets, stop both OpenAI heartbeats and close
both OpenAI sockets, reset the mixing / pacing / timing state, and report the
per-leg mean latencies.  The latency-sample logs themselves are not cleared
by the source. -/
def closeInterceptor (s : InterceptorState) : InterceptorState × List Action :=
  let closeCallerActs :=
    match s.callerSocket with
    | some _ => [Action.closeTransport Leg.caller]
    | none => []
  let closeAgentActs :=
    match s.agentSocket with
    | some _ => [Action.closeTransport Leg.agent]
    | none => []
  let callerTime := reportOnSocketTimeToFirstAudioBufferAdd s.caller.messages
  let agentTime := reportOnSocketTimeToFirstAudioBufferAdd s.agent.messages
  ({ s with
      callerSocket := none
      agentSocket := none
      callerOpenAIOpen := false
      agentOpenAIOpen := false
      callerPingActive := false
      agentPingActive := false
      caller := { initLegState with messages := s.caller.messages }
      agent := { initLegState with messages := s.agent.messages }
      callerOutputState := initOutputState
      agentOutputState := initOutputState },
    closeCallerActs ++ closeAgentActs ++
      [Action.closeOpenAI Leg.caller, Action.closeOpenAI Leg.agent,
        Action.reportLatency Leg.caller callerTime,
        Action.reportLatency Leg.agent agentTime])

/-! ### Stream Transport (`StreamSocket.ts` and the `intercept.ts` glue) -/

/-- Listener state of one `StreamSocket`: the registered callbacks per event
kind (identified abstractly), the stream id, and the externally assigned
caller-identifying `from` value. -/
structure TransportState where
  streamSid : Option String
  from' : Option String
  onStartCbs : List Nat
  onConnectedCbs : List Nat
  onMediaCbs : List Nat
  onStopCbs : List Nat
deriving DecidableEq

/-- Parsed inbound frames (`AudioMessage`); a `start` frame also carries the
`from` custom parameter that the route glue reads. -/
inductive Frame
  | connected
  | start (streamSid : String) (fromParam : Option String)
  | media (payload : AudioPayload)
  | stop
  | mark
  | unknown
deriving DecidableEq

/-- One listener invocation dispatched by `StreamSocket.onMessage`. -/
inductive Invocation
  | startCb (id : Nat) (streamSid : String)
  | connectedCb (id : Nat)
  | mediaCb (id : Nat) (payload : AudioPayload)
  | stopCb (id : Nat) (from' : Option String)
deriving DecidableEq

/-- Whether an invocation went to a stop listener. -/
def isStopInv : Invocation → Bool
  | .stopCb _ _ => true
  | _ => false

/-- `StreamSocket.onMessage`: route one parsed frame.  A `start` frame
invokes the start listeners and then records the stream id; a `stop` frame
clears the media/start/connected listener lists and invokes the stop
listeners with the current `from` value; `mark` and unknown events do
nothing observable. -/
def handleTransportFrame (st : TransportState) (f : Frame) :
    TransportState × List Invocation :=
  match f with
  | .connected => (st, st.onConnectedCbs.map Invocation.connectedCb)
  | .start sid _ =>
      ({ st with streamSid := some sid }, st.onStartCbs.map fun i => Invocation.startCb i sid)
  | .media payload => (st, st.onMediaCbs.map fun i => Invocation.mediaCb i payload)
  | .stop =>
      ({ st with onMediaCbs := [], onStartCbs := [], onConnectedCbs := [] },
        st.onStopCbs.map fun i => Invocation.stopCb i st.from')
  | .mark => (st, [])
  | .unknown => (st, [])

/-- The `from`-capturing effect of the `ss.onStart` handler registered by
`src/routes/intercept.ts`: when the start frame's `from` custom parameter is
a (truthy, hence nonempty) string, both the inbound and the outbound branch
store it in `ss.from`; otherwise the handler returns early. -/
def routeOnStart (st : TransportState) (fromParam : Option String) : TransportState :=
  match fromParam with
  | some f => if f = "" then st else { st with from' := some f }
  | none => st

/-- Fold a frame sequence through one transport, collecting every listener
invocation that gets dispatched. -/
def foldFrames (st : TransportState) : List Frame → TransportState × List Invocation
  | [] => (st, [])
  | f :: rest =>
      let out := handleTransportFrame st f
      let outRest := foldFrames out.1 rest
      (outRest.1, out.2 ++ outRest.2)

/-- Is this event `response.created` on the caller's translation connection? -/
def isCallerCreatedEv : Event → Bool
  | .callerBackend (.responseCreated _) => true
  | _ => false

/-- Is this event a finish variant (`response.done` / `response.audio.done`)
on the caller's translation connection? -/
def isCallerFinishEv : Event → Bool
  | .callerBackend .responseDone => true
  | .callerBackend .responseAudioDone => true
  | _ => false

/-- Is this event `response.created` on the agent's translation connection? -/
def isAgentCreatedEv : Event → Bool
  | .agentBackend (.responseCreated _) => true
  | _ => false

/-- Is this event a finish variant on the agent's translation connection? -/
def isAgentFinishEv : Event → Bool
  | .agentBackend .responseDone => true
  | .agentBackend .responseAudioDone => true
  | _ => false

/-! ### Helper lemmas -/

/-- Folding `+ f m` over a list starting from `c` is `c` plus the sum of the
mapped values. -/
lemma foldl_add_eq_sum (f : BufferedMessage → ℚ) (l : List BufferedMessage) (c : ℚ) :
    l.foldl (fun acc m => acc + f m) c = c + (l.map f).sum := by
  induction l generalizing c with
  | nil => simp
  | cons m rest ih =>
      rw [List.foldl_cons, ih]
      simp
      ring

/-- Everything `requestRemoteBufferClear` can deliver is the clear command. -/
lemma mem_requestRemoteBufferClear (socket : Option Bool) (dest : Leg) (a : Action)
    (h : a ∈ requestRemoteBufferClear socket dest) : a = Action.clearTransport dest := by
  cases socket with
  | none => simp [requestRemoteBufferClear] at h
  | some b =>
      cases b with
      | false => simp [requestRemoteBufferClear] at h
      | true => simpa [requestRemoteBufferClear] using h

/-- Everything `sendAlignedAudio` can deliver is the aligned media frame. -/
lemma mem_sendAlignedAudio (socket : Option Bool) (dest : Leg) (payload : AudioPayload)
    (a : Action) (h : a ∈ sendAlignedAudio socket dest payload) :
    a = Action.sendToTransport dest (alignAudioFrames payload) := by
  cases socket with
  | none => simp [sendAlignedAudio] at h
  | some b =>
      cases b with
      | false => simp [sendAlignedAudio] at h
      | true => simpa [sendAlignedAudio] using h

/-- Everything `sendTranslationOutput` can deliver is a remote-buffer clear
or the aligned media frame for the destination transport. -/
lemma mem_sendTranslationOutput (socket : Option Bool) (dest : Leg) (payload : AudioPayload)
    (st : OutputState) (now : Nat) (a : Action)
    (ha : a ∈ (sendTranslationOutput socket dest payload st now).2) :
    a = Action.clearTransport dest ∨ a = Action.sendToTransport dest (alignAudioFrames payload) := by
  unfold sendTranslationOutput at ha
  split at ha
  · simp only [List.mem_append] at ha
    rcases ha with h | h
    · left
      split at h
      · split at h
        · exact mem_requestRemoteBufferClear socket dest a h
        · simp at h
      · simp at h
    · exact Or.inr (mem_sendAlignedAudio socket dest payload a h)
  · exact Or.inr (mem_sendAlignedAudio socket dest payload a ha)

/-- `sendTranslationOutput` never touches a translation connection. -/
lemma openAIClear_not_mem_sendTranslationOutput (socket : Option Bool) (dest : Leg)
    (payload : AudioPayload) (st : OutputState) (now : Nat) (leg : Leg) :
    Action.openAIClear leg ∉ (sendTranslationOutput socket dest payload st now).2 := by
  intro hmem
  rcases mem_sendTranslationOutput socket dest payload st now _ hmem with h | h <;>
    exact Action.noConfusion h

/-! ### Claims -/

/-- C6: frame alignment truncates the decoded payload to the largest multiple
of 8 not exceeding its length when at least one full frame is present, and
returns the payload unmodified when it is shorter than one frame. -/
theorem alignAudioFrames_length_law (p : AudioPayload) :
    (8 ≤ p.length → (alignAudioFrames p).length = p.length / 8 * 8)
    ∧ (p.length < 8 → alignAudioFrames p = p) := by
  constructor
  · intro h
    have h1 : 1 ≤ p.length / 8 := (Nat.one_le_div_iff (by norm_num)).mpr h
    have h2 : p.length / 8 * 8 ≤ p.length := Nat.div_mul_le_self _ _
    have hne : ¬ p.length / 8 * 8 = 0 := by omega
    simp only [alignAudioFrames, hne, if_false, List.length_take]
    omega
  · intro h
    have h0 : p.length / 8 = 0 := Nat.div_eq_of_lt h
    simp [alignAudioFrames, h0]

/-- Witness for C6 at a 9-byte and a 3-byte payload. -/
theorem alignAudioFrames_length_law_witness :
    (alignAudioFrames [0, 1, 2, 3, 4, 5, 6, 7, 8]).length = 9 / 8 * 8
    ∧ alignAudioFrames [0, 1, 2] = [0, 1, 2] :=
  ⟨(alignAudioFrames_length_law [0, 1, 2, 3, 4, 5, 6, 7, 8]).1 (by decide),
    (alignAudioFrames_length_law [0, 1, 2]).2 (by decide)⟩

/-- C7: the end-of-session latency report is the arithmetic mean of
`first_audio_buffer_add_time - vad_speech_stopped_time` over exactly the
samples with a recorded chunk time, and `0` when no sample qualifies; on the
sample list of the claim it reports `300`. -/
theorem latencyReport_law (messages : List BufferedMessage) :
    (reportOnSocketTimeToFirstAudioBufferAdd messages =
      if (messages.filter fun m => m.first_audio_buffer_add_time.isSome) = [] then 0
      else ((messages.filter fun m => m.first_audio_buffer_add_time.isSome).map
              fun m => (((m.first_audio_buffer_add_time.getD 0 : ℤ)
                          - (m.vad_speech_stopped_time : ℤ) : ℤ) : ℚ)).sum
            / ((messages.filter fun m => m.first_audio_buffer_add_time.isSome).length : ℚ))
    ∧ reportOnSocketTimeToFirstAudioBufferAdd
        [{ message_id := "evt1", first_audio_buffer_add_time := some 1300,
            vad_speech_stopped_time := 1000 },
          { message_id := "evt2", first_audio_buffer_add_time := none,
            vad_speech_stopped_time := 2000 }] = 300
    ∧ reportOnSocketTimeToFirstAudioBufferAdd [] = 0 := by
  refine ⟨?_, by norm_num [reportOnSocketTimeToFirstAudioBufferAdd, List.filter], rfl⟩
  by_cases h : messages = []
  · subst h
    simp [reportOnSocketTimeToFirstAudioBufferAdd]
  · have hlen : ¬ messages.length = 0 := by simpa [List.length_eq_zero] using h
    simp only [reportOnSocketTimeToFirstAudioBufferAdd, hlen, if_false]
    by_cases hf : (messages.filter fun m => m.first_audio_buffer_add_time.isSome) = []
    · simp [hf]
    · have hflen : ¬ (messages.filter fun m => m.first_audio_buffer_add_time.isSome).length = 0 := by
        simpa [List.length_eq_zero] using hf
      simp only [hflen, if_false, hf, foldl_add_eq_sum, zero_add]

/-- C10: a translated chunk emitted towards an absent or closed destination
socket is dropped (no command is delivered, nothing is raised), yet the
pacing state still starts a segment if none is current and always accrues
`decodedByteLength / 8000 * 1000` milliseconds. -/
theorem droppedChunk_still_paces (socket : Option Bool) (dest : Leg)
    (payload : AudioPayload) (state : OutputState) (now : Nat)
    (h : socket = none ∨ socket = some false) :
    (sendTranslationOutput socket dest payload state now).2 = []
    ∧ (sendTranslationOutput socket dest payload state now).1.currentStart
        = some (state.currentStart.getD now)
    ∧ (sendTranslationOutput socket dest payload state now).1.currentDurationMs
        = (if state.currentStart = none then 0 else state.currentDurationMs)
          + (payload.length : ℚ) / 8000 * 1000
    ∧ (sendTranslationOutput socket dest payload state now).1.lastStart = state.lastStart
    ∧ (sendTranslationOutput socket dest payload state now).1.lastDurationMs
        = state.lastDurationMs := by
  have hclear : requestRemoteBufferClear socket dest = [] := by
    rcases h with h | h <;> subst h <;> rfl
  have hsend : sendAlignedAudio socket dest payload = [] := by
    rcases h with h | h <;> subst h <;> rfl
  cases hcs : state.currentStart with
  | none =>
      refine ⟨?_, ?_, ?_, ?_, ?_⟩ <;>
        · simp only [sendTranslationOutput, hcs, if_pos rfl, hclear, hsend]
          rcases state.lastStart with _ | ls <;> rcases state.lastDurationMs with _ | ld <;>
            simp
  | some cs =>
      have hne : ¬ state.currentStart = none := by simp [hcs]
      refine ⟨?_, ?_, ?_, ?_, ?_⟩ <;>
        simp [sendTranslationOutput, hne, hcs, hsend]

/-- Witness for C10 with an absent destination socket. -/
theorem droppedChunk_still_paces_witness :
    (sendTranslationOutput none Leg.agent [1, 2, 3, 4, 5, 6, 7, 8]
        initOutputState 42).2 = []
    ∧ (sendTranslationOutput none Leg.agent [1, 2, 3, 4, 5, 6, 7, 8]
        initOutputState 42).1.currentStart = some (initOutputState.currentStart.getD 42)
    ∧ (sendTranslationOutput none Leg.agent [1, 2, 3, 4, 5, 6, 7, 8]
        initOutputState 42).1.currentDurationMs
        = (if initOutputState.currentStart = none then 0
            else initOutputState.currentDurationMs)
          + (([1, 2, 3, 4, 5, 6, 7, 8] : AudioPayload).length : ℚ) / 8000 * 1000
    ∧ (sendTranslationOutput none Leg.agent [1, 2, 3, 4, 5, 6, 7, 8]
        initOutputState 42).1.lastStart = initOutputState.lastStart
    ∧ (sendTranslationOutput none Leg.agent [1, 2, 3, 4, 5, 6, 7, 8]
        initOutputState 42).1.lastDurationMs = initOutputState.lastDurationMs :=
  droppedChunk_still_paces none Leg.agent [1, 2, 3, 4, 5, 6, 7, 8] initOutputState 42
    (Or.inl rfl)

/-- C5 counterexample: at a pacing state with no segment in progress
(`currentSegmentStart` unset, as after the first of the two finish events of
a response, or a response that produced no audio), finalizing does NOT copy
the `current*` values into `last*`: the previous `last*` values survive,
while the claim demands `lastStart = currentStart = none` and
`lastDurationMs = some 0`. -/
theorem finalize_copies_unconditionally_false :
    ¬ ((finalizeTranslationOutput
          { currentStart := none, currentDurationMs := 0,
            lastStart := some 5, lastDurationMs := some 100 }).lastStart
        = ({ currentStart := none, currentDurationMs := 0,
              lastStart := some 5, lastDurationMs := some 100 } : OutputState).currentStart
      ∧ (finalizeTranslationOutput
          { currentStart := none, currentDurationMs := 0,
            lastStart := some 5, lastDurationMs := some 100 }).lastDurationMs
        = some ({ currentStart := none, currentDurationMs := 0,
                  lastStart := some 5, lastDurationMs := some 100 } : OutputState).currentDurationMs) := by
  intro h
  exact Option.noConfusion (h.1.symm.trans rfl |>.symm.trans rfl)

/-- C5 (amended): finalizing always leaves `currentSegmentStart` unset and
`currentSegmentDurationMs = 0`; it copies `current*` into `last*` exactly
when a segment was in progress (`currentSegmentStart` set) and otherwise
leaves `last*` untouched — so the second finish event of the same response
is harmless.  Each finish event applies the finalization to the opposite
leg's pacing state and leaves the own leg's pacing state unchanged. -/
theorem finalize_pacing_law (state : OutputState) (s : InterceptorState) (t : Nat) :
    ((finalizeTranslationOutput state).currentStart = none)
    ∧ ((finalizeTranslationOutput state).currentDurationMs = 0)
    ∧ (∀ cs, state.currentStart = some cs →
        (finalizeTranslationOutput state).lastStart = some cs
        ∧ (finalizeTranslationOutput state).lastDurationMs = some state.currentDurationMs)
    ∧ (state.currentStart = none →
        (finalizeTranslationOutput state).lastStart = state.lastStart
        ∧ (finalizeTranslationOutput state).lastDurationMs = state.lastDurationMs)
    ∧ (handleCallerOpenAIMessage s .responseDone t).1.agentOutputState
        = finalizeTranslationOutput s.agentOutputState
    ∧ (handleCallerOpenAIMessage s .responseAudioDone t).1.agentOutputState
        = finalizeTranslationOutput s.agentOutputState
    ∧ (handleCallerOpenAIMessage s .responseDone t).1.callerOutputState = s.callerOutputState
    ∧ (handleAgentOpenAIMessage s .responseDone t).1.callerOutputState
        = finalizeTranslationOutput s.callerOutputState
    ∧ (handleAgentOpenAIMessage s .responseAudioDone t).1.callerOutputState
        = finalizeTranslationOutput s.callerOutputState
    ∧ (handleAgentOpenAIMessage s .responseDone t).1.agentOutputState = s.agentOutputState := by
  refine ⟨?_, ?_, ?_, ?_, rfl, rfl, rfl, rfl, rfl, rfl⟩ <;>
    cases hcs : state.currentStart <;>
      simp [finalizeTranslationOutput, hcs]

/-- Witness for C5 (amended) with a segment in progress. -/
theorem finalize_pacing_law_witness :
    (finalizeTranslationOutput
        { currentStart := some 7, currentDurationMs := 16,
          lastStart := none, lastDurationMs := none }).lastStart = some 7
    ∧ (finalizeTranslationOutput
        { currentStart := some 7, currentDurationMs := 16,
          lastStart := none, lastDurationMs := none }).lastDurationMs
        = some ({ currentStart := some 7, currentDurationMs := 16,
                  lastStart := none, lastDurationMs := none } : OutputState).currentDurationMs :=
  (finalize_pacing_law
      { currentStart := some 7, currentDurationMs := 16,
        lastStart := none, lastDurationMs := none }
      (initState true true true) 0).2.2.1 7 rfl

/-- C8 counterexample: `close()` does not clear the latency-sample logs —
after closing an interceptor holding one caller sample, the caller log is
still non-empty. -/
theorem close_does_not_clear_logs :
    ¬ ((closeInterceptor
          { initState true true true with
              caller := { initLegState with
                messages := [{ message_id := "e1",
                                first_audio_buffer_add_time := some 1300,
                                vad_speech_stopped_time := 1000 }] } }).1.caller.messages
        = []) := by
  simp [closeInterceptor, initState, initLegState]

/-- C8 (amended): after `close()` both stream sockets are detached/closed,
both translation connections are closed with their heartbeats stopped, every
per-leg `TranslationState` / `SpeechTimingState` / `OutputPacingState` field
is reset to its initial unset/false/empty value, and the per-leg mean
latency computed from the (retained, not cleared) latency-sample logs is
reported. -/
theorem close_teardown_law (s : InterceptorState) :
    (closeInterceptor s).1.callerSocket = none
    ∧ (closeInterceptor s).1.agentSocket = none
    ∧ (closeInterceptor s).1.callerOpenAIOpen = false
    ∧ (closeInterceptor s).1.agentOpenAIOpen = false
    ∧ (closeInterceptor s).1.callerPingActive = false
    ∧ (closeInterceptor s).1.agentPingActive = false
    ∧ (closeInterceptor s).1.caller = { initLegState with messages := s.caller.messages }
    ∧ (closeInterceptor s).1.agent = { initLegState with messages := s.agent.messages }
    ∧ (closeInterceptor s).1.callerOutputState = initOutputState
    ∧ (closeInterceptor s).1.agentOutputState = initOutputState
    ∧ Action.reportLatency Leg.caller
        (reportOnSocketTimeToFirstAudioBufferAdd s.caller.messages) ∈ (closeInterceptor s).2
    ∧ Action.reportLatency Leg.agent
        (reportOnSocketTimeToFirstAudioBufferAdd s.agent.messages) ∈ (closeInterceptor s).2 := by
  refine ⟨rfl, rfl, rfl, rfl, rfl, rfl, rfl, rfl, rfl, rfl, ?_, ?_⟩ <;>
    · simp only [closeInterceptor, List.mem_append, List.mem_cons]
      rcases s.callerSocket with _ | b <;> rcases s.agentSocket with _ | b2 <;> simp

/-- C3: with the destination transport attached and open, an inbound media
chunk on leg X is forwarded (frame-aligned, otherwise unmodified) to leg Y's
transport if and only if the pass-through flag is enabled and leg X's
translation state is not active at processing time. -/
theorem passThrough_iff (s : InterceptorState) (payload : AudioPayload) (now : Nat)
    (hA : s.agentSocket = some true) (hC : s.callerSocket = some true) :
    (Action.sendToTransport Leg.agent (alignAudioFrames payload)
        ∈ (translateAndForwardCallerAudio s payload now).2
      ↔ (s.forwardBeforeTranslation = true ∧ s.caller.translationActive = false))
    ∧ (Action.sendToTransport Leg.caller (alignAudioFrames payload)
        ∈ (translateAndForwardAgentAudio s payload now).2
      ↔ (s.forwardBeforeTranslation = true ∧ s.agent.translationActive = false)) := by
  constructor
  · cases hf : s.forwardBeforeTranslation <;> cases ha : s.caller.translationActive <;>
      simp [translateAndForwardCallerAudio, sendAlignedAudio, sendMessageToOpenAI,
        hA, hf, ha]
  · cases hf : s.forwardBeforeTranslation <;> cases ha : s.agent.translationActive <;>
      simp only [translateAndForwardAgentAudio, sendAlignedAudio, sendMessageToOpenAI,
        hC, hf, ha] <;>
      (repeat' split) <;> simp_all

/-- Witness for C3: pass-through flag on, no active translation on either
leg, both transports open. -/
theorem passThrough_iff_witness :
    (Action.sendToTransport Leg.agent (alignAudioFrames [9, 9, 9])
        ∈ (translateAndForwardCallerAudio
            { initState true true true with callerSocket := some true, agentSocket := some true }
            [9, 9, 9] 77).2
      ↔ (({ initState true true true with callerSocket := some true, agentSocket := some true }
            : InterceptorState).forwardBeforeTranslation = true
          ∧ ({ initState true true true with callerSocket := some true, agentSocket := some true }
              : InterceptorState).caller.translationActive = false))
    ∧ (Action.sendToTransport Leg.caller (alignAudioFrames [9, 9, 9])
        ∈ (translateAndForwardAgentAudio
            { initState true true true with callerSocket := some true, agentSocket := some true }
            [9, 9, 9] 77).2
      ↔ (({ initState true true true with callerSocket := some true, agentSocket := some true }
            : InterceptorState).forwardBeforeTranslation = true
          ∧ ({ initState true true true with callerSocket := some true, agentSocket := some true }
              : InterceptorState).agent.translationActive = false)) :=
  passThrough_iff
    { initState true true true with callerSocket := some true, agentSocket := some true }
    [9, 9, 9] 77 rfl rfl

/-- C4: on a translated-audio chunk for a leg whose speech and translation
start anchors are both recorded and whose translation connection is open, an
input-buffer clear goes out on that leg's own connection exactly when
`now - translationStartedAt` exceeds 5000 ms; a chunk at `T + 4999` triggers
none and one at `T + 5001` does. -/
theorem delayCorrection_boundary (s : InterceptorState) (T now : Nat) (delta : AudioPayload)
    (hT : T ≠ 0) :
    (s.caller.translationStartTime = some T →
      truthy s.caller.speechStartTimestamp = true →
      s.callerOpenAIOpen = true →
      ((Action.openAIClear Leg.caller
          ∈ (handleCallerOpenAIMessage s (.audioDelta delta) now).2
        ↔ 5000 < (now : ℤ) - (T : ℤ))
      ∧ Action.openAIClear Leg.caller
          ∉ (handleCallerOpenAIMessage s (.audioDelta delta) (T + 4999)).2
      ∧ Action.openAIClear Leg.caller
          ∈ (handleCallerOpenAIMessage s (.audioDelta delta) (T + 5001)).2))
    ∧ (s.agent.translationStartTime = some T →
      truthy s.agent.speechStartTimestamp = true →
      s.agentOpenAIOpen = true →
      ((Action.openAIClear Leg.agent
          ∈ (handleAgentOpenAIMessage s (.audioDelta delta) now).2
        ↔ 5000 < (now : ℤ) - (T : ℤ))
      ∧ Action.openAIClear Leg.agent
          ∉ (handleAgentOpenAIMessage s (.audioDelta delta) (T + 4999)).2
      ∧ Action.openAIClear Leg.agent
          ∈ (handleAgentOpenAIMessage s (.audioDelta delta) (T + 5001)).2)) := by
  have hmain : ∀ (speechStart : Option Nat) (isOpen : Bool) (leg : Leg) (tm : Nat),
      truthy speechStart = true → isOpen = true →
      (Action.openAIClear leg ∈ trackTranslationTiming speechStart (some T) isOpen leg tm
        ↔ 5000 < (tm : ℤ) - (T : ℤ)) := by
    intro speechStart isOpen leg tm hss hopen
    have hTt : truthy (some T) = true := by simp [truthy, hT]
    simp only [trackTranslationTiming, hss, hTt, Bool.and_self, if_true, hopen,
      sendMessageToOpenAI, Option.getD_some]
    split <;> simp_all
  constructor
  · intro hts hss hopen
    have hmem : ∀ tm, Action.openAIClear Leg.caller
        ∈ (handleCallerOpenAIMessage s (.audioDelta delta) tm).2
        ↔ 5000 < (tm : ℤ) - (T : ℤ) := by
      intro tm
      simp only [handleCallerOpenAIMessage, List.mem_append, hts]
      rw [or_iff_left (openAIClear_not_mem_sendTranslationOutput _ _ _ _ _ _)]
      exact hmain s.caller.speechStartTimestamp s.callerOpenAIOpen Leg.caller tm hss hopen
    refine ⟨hmem now, ?_, ?_⟩
    · rw [hmem (T + 4999)]
      push_cast
      omega
    · rw [hmem (T + 5001)]
      push_cast
      omega
  · intro hts hss hopen
    have hmem : ∀ tm, Action.openAIClear Leg.agent
        ∈ (handleAgentOpenAIMessage s (.audioDelta delta) tm).2
        ↔ 5000 < (tm : ℤ) - (T : ℤ) := by
      intro tm
      simp only [handleAgentOpenAIMessage, List.mem_append, hts]
      rw [or_iff_left (openAIClear_not_mem_sendTranslationOutput _ _ _ _ _ _)]
      exact hmain s.agent.speechStartTimestamp s.agentOpenAIOpen Leg.agent tm hss hopen
    refine ⟨hmem now, ?_, ?_⟩
    · rw [hmem (T + 4999)]
      push_cast
      omega
    · rw [hmem (T + 5001)]
      push_cast
      omega

/-- Witness for C4: caller leg with `speechStartedAt = 100`,
`translationStartedAt = 2000`, chunk at `8000` (delay 6000 ms). -/
theorem delayCorrection_boundary_witness :
    Action.openAIClear Leg.caller
      ∈ (handleCallerOpenAIMessage
          { initState true true true with
              caller := { initLegState with
                speechStartTimestamp := some 100, translationStartTime := some 2000 } }
          (.audioDelta [1, 2, 3]) 8000).2
    ↔ 5000 < (8000 : ℤ) - (2000 : ℤ) :=
  ((delayCorrection_boundary
      { initState true true true with
          caller := { initLegState with
            speechStartTimestamp := some 100, translationStartTime := some 2000 } }
      2000 8000 [1, 2, 3] (by decide)).1 rfl (by decide) rfl).1

/-- Effect of one event on the caller's `translationActive` flag: only the
caller-side lifecycle events change it. -/
lemma step_caller_active (s : InterceptorState) (p : Event × Nat) :
    (step s p).1.caller.translationActive =
      (if isCallerCreatedEv p.1 then true
        else if isCallerFinishEv p.1 then false
        else s.caller.translationActive) := by
  obtain ⟨e, t⟩ := p
  cases e with
  | callerMedia payload =>
      simp only [step, translateAndForwardCallerAudio, isCallerCreatedEv, isCallerFinishEv]
      split <;> rfl
  | agentMedia payload =>
      simp only [step, translateAndForwardAgentAudio, isCallerCreatedEv, isCallerFinishEv]
      (repeat' split) <;> simp_all
  | callerBackend ev =>
      cases ev <;>
        simp [step, handleCallerOpenAIMessage, handleCallerFinish,
          isCallerCreatedEv, isCallerFinishEv]
  | agentBackend ev =>
      cases ev <;>
        simp [step, handleAgentOpenAIMessage, handleAgentFinish,
          isCallerCreatedEv, isCallerFinishEv]

/-- Effect of one event on the agent's `translationActive` flag. -/
lemma step_agent_active (s : InterceptorState) (p : Event × Nat) :
    (step s p).1.agent.translationActive =
      (if isAgentCreatedEv p.1 then true
        else if isAgentFinishEv p.1 then false
        else s.agent.translationActive) := by
  obtain ⟨e, t⟩ := p
  cases e with
  | callerMedia payload =>
      simp only [step, translateAndForwardCallerAudio, isAgentCreatedEv, isAgentFinishEv]
      (repeat' split) <;> simp_all
  | agentMedia payload =>
      simp only [step, translateAndForwardAgentAudio, isAgentCreatedEv, isAgentFinishEv]
      (repeat' split) <;> simp_all
  | callerBackend ev =>
      cases ev <;>
        simp [step, handleCallerOpenAIMessage, handleCallerFinish,
          isAgentCreatedEv, isAgentFinishEv]
  | agentBackend ev =>
      cases ev <;>
        simp [step, handleAgentOpenAIMessage, handleAgentFinish,
          isAgentCreatedEv, isAgentFinishEv]

/-- The caller's `translationActive` flag after a whole event sequence is a
fold of the lifecycle transitions alone. -/
lemma foldEvents_caller_active (s : InterceptorState) (l : List (Event × Nat)) :
    (foldEvents s l).caller.translationActive =
      l.foldl (fun b p => if isCallerCreatedEv p.1 then true
        else if isCallerFinishEv p.1 then false else b) s.caller.translationActive := by
  induction l generalizing s with
  | nil => rfl
  | cons p rest ih =>
      simp only [foldEvents, List.foldl_cons]
      rw [ih, step_caller_active]

/-- The agent's `translationActive` flag after a whole event sequence. -/
lemma foldEvents_agent_active (s : InterceptorState) (l : List (Event × Nat)) :
    (foldEvents s l).agent.translationActive =
      l.foldl (fun b p => if isAgentCreatedEv p.1 then true
        else if isAgentFinishEv p.1 then false else b) s.agent.translationActive := by
  induction l generalizing s with
  | nil => rfl
  | cons p rest ih =>
      simp only [foldEvents, List.foldl_cons]
      rw [ih, step_agent_active]

/-- Decompose a split of a cons list into a head split or a tail split. -/
lemma cons_split_iff {α : Type} (P : α → List α → Prop) (x : α) (xs : List α) :
    (∃ pre y post, x :: xs = pre ++ y :: post ∧ P y post)
      ↔ (P x xs ∨ ∃ pre y post, xs = pre ++ y :: post ∧ P y post) := by
  constructor
  · rintro ⟨pre, y, post, heq, hP⟩
    cases pre with
    | nil =>
        simp only [List.nil_append, List.cons.injEq] at heq
        rcases heq with ⟨h1, h2⟩
        subst h1
        subst h2
        exact Or.inl hP
    | cons z pre2 =>
        simp only [List.cons_append, List.cons.injEq] at heq
        rcases heq with ⟨h1, h2⟩
        exact Or.inr ⟨pre2, y, post, h2, hP⟩
  · rintro (hP | ⟨pre, y, post, heq, hP⟩)
    · exact ⟨[], x, xs, rfl, hP⟩
    · exact ⟨x :: pre, y, post, by rw [heq, List.cons_append], hP⟩

/-- A last-one-wins fold over start/finish markers is true exactly when some
start marker is followed by no finish marker. -/
lemma foldl_life_true_iff {α : Type} (isC isF : α → Bool) (l : List α) (b : Bool) :
    (l.foldl (fun acc x => if isC x then true else if isF x then false else acc) b = true
      ↔ ((∃ pre y post, l = pre ++ y :: post ∧ isC y = true ∧ ∀ z ∈ post, isF z = false)
          ∨ (b = true ∧ ∀ z ∈ l, isF z = false))) := by
  induction l generalizing b with
  | nil => simp
  | cons x xs ih =>
      rw [List.foldl_cons]
      constructor
      · intro h
        rcases (ih _).mp h with hA | ⟨hb, hB⟩
        · rcases hA with ⟨pre, y, post, heq, hCy, hpost⟩
          exact Or.inl ⟨x :: pre, y, post, by rw [heq, List.cons_append], hCy, hpost⟩
        · by_cases hC : isC x = true
          · exact Or.inl ⟨[], x, xs, rfl, hC, hB⟩
          · have hC2 : isC x = false := by simpa using hC
            rw [hC2] at hb
            simp only [Bool.false_eq_true, if_false] at hb
            by_cases hF : isF x = true
            · rw [hF] at hb
              simp at hb
            · have hF2 : isF x = false := by simpa using hF
              rw [hF2] at hb
              simp only [Bool.false_eq_true, if_false] at hb
              refine Or.inr ⟨hb, ?_⟩
              intro z hz
              rcases List.mem_cons.mp hz with hzx | hz2
              · rw [hzx]
                exact hF2
              · exact hB z hz2
      · intro h
        rcases h with ⟨pre, y, post, heq, hCy, hpost⟩ | ⟨hb, hB⟩
        · cases pre with
          | nil =>
              simp only [List.nil_append, List.cons.injEq] at heq
              rcases heq with ⟨h1, h2⟩
              apply (ih _).mpr
              refine Or.inr ⟨?_, ?_⟩
              · rw [h1, hCy]
                simp
              · rw [h2]
                exact hpost
          | cons z pre2 =>
              simp only [List.cons_append, List.cons.injEq] at heq
              rcases heq with ⟨h1, h2⟩
              apply (ih _).mpr
              exact Or.inl ⟨pre2, y, post, h2, hCy, hpost⟩
        · apply (ih _).mpr
          have hFx : isF x = false := hB x (List.mem_cons_self x xs)
          refine Or.inr ⟨?_, ?_⟩
          · by_cases hC : isC x = true
            · simp [hC]
            · have hC2 : isC x = false := by simpa using hC
              simp [hC2, hFx, hb]
          · intro z hz
            exact hB z (List.mem_cons_of_mem x hz)

/-- C2: starting from any state with both legs inactive, a leg's
`TranslationState.active` is true after an event sequence exactly when the
sequence contains a `response.created` for that leg followed by no matching
finish event — the half-open interval [response-started, response-finished). -/
theorem translationActive_half_open_interval (s0 : InterceptorState)
    (evs : List (Event × Nat))
    (hc : s0.caller.translationActive = false) (ha : s0.agent.translationActive = false) :
    ((foldEvents s0 evs).caller.translationActive = true
      ↔ ∃ pre rid t post,
          evs = pre ++ (Event.callerBackend (OpenAIEvent.responseCreated rid), t) :: post
          ∧ ∀ p ∈ post, isCallerFinishEv p.1 = false)
    ∧ ((foldEvents s0 evs).agent.translationActive = true
      ↔ ∃ pre rid t post,
          evs = pre ++ (Event.agentBackend (OpenAIEvent.responseCreated rid), t) :: post
          ∧ ∀ p ∈ post, isAgentFinishEv p.1 = false) := by
  constructor
  · have hsim := foldEvents_caller_active s0 evs
    rw [hc] at hsim
    rw [hsim]
    refine (foldl_life_true_iff _ _ evs false).trans ?_
    constructor
    · rintro (⟨pre, y, post, heq, hCy, hpost⟩ | ⟨hfalse, -⟩)
      · obtain ⟨e, t⟩ := y
        cases e with
        | callerMedia payload => simp [isCallerCreatedEv] at hCy
        | agentMedia payload => simp [isCallerCreatedEv] at hCy
        | callerBackend ev =>
            cases ev with
            | responseCreated rid => exact ⟨pre, rid, t, post, heq, hpost⟩
            | responseDone => simp [isCallerCreatedEv] at hCy
            | responseAudioDone => simp [isCallerCreatedEv] at hCy
            | speechStarted => simp [isCallerCreatedEv] at hCy
            | speechStopped eid => simp [isCallerCreatedEv] at hCy
            | audioDelta d => simp [isCallerCreatedEv] at hCy
            | otherEvent => simp [isCallerCreatedEv] at hCy
        | agentBackend ev => simp [isCallerCreatedEv] at hCy
      · exact absurd hfalse (by simp)
    · rintro ⟨pre, rid, t, post, heq, hpost⟩
      exact Or.inl ⟨pre, (Event.callerBackend (.responseCreated rid), t), post, heq, rfl, hpost⟩
  · have hsim := foldEvents_agent_active s0 evs
    rw [ha] at hsim
    rw [hsim]
    refine (foldl_life_true_iff _ _ evs false).trans ?_
    constructor
    · rintro (⟨pre, y, post, heq, hCy, hpost⟩ | ⟨hfalse, -⟩)
      · obtain ⟨e, t⟩ := y
        cases e with
        | callerMedia payload => simp [isAgentCreatedEv] at hCy
        | agentMedia payload => simp [isAgentCreatedEv] at hCy
        | callerBackend ev => simp [isAgentCreatedEv] at hCy
        | agentBackend ev =>
            cases ev with
            | responseCreated rid => exact ⟨pre, rid, t, post, heq, hpost⟩
            | responseDone => simp [isAgentCreatedEv] at hCy
            | responseAudioDone => simp [isAgentCreatedEv] at hCy
            | speechStarted => simp [isAgentCreatedEv] at hCy
            | speechStopped eid => simp [isAgentCreatedEv] at hCy
            | audioDelta d => simp [isAgentCreatedEv] at hCy
            | otherEvent => simp [isAgentCreatedEv] at hCy
      · exact absurd hfalse (by simp)
    · rintro ⟨pre, rid, t, post, heq, hpost⟩
      exact Or.inl ⟨pre, (Event.agentBackend (.responseCreated rid), t), post, heq, rfl, hpost⟩

/-- Witness for C2: one caller `response.created`, then a finish event. -/
theorem translationActive_half_open_interval_witness :
    (foldEvents (initState true true true)
        [(Event.callerBackend (OpenAIEvent.responseCreated (some "r1")), 5),
          (Event.callerBackend OpenAIEvent.responseDone, 9)]).caller.translationActive = true
      ↔ ∃ pre rid t post,
          [(Event.callerBackend (OpenAIEvent.responseCreated (some "r1")), 5),
            (Event.callerBackend OpenAIEvent.responseDone, 9)]
            = pre ++ (Event.callerBackend (OpenAIEvent.responseCreated rid), t) :: post
          ∧ ∀ p ∈ post, isCallerFinishEv p.1 = false :=
  (translationActive_half_open_interval (initState true true true)
      [(Event.callerBackend (OpenAIEvent.responseCreated (some "r1")), 5),
        (Event.callerBackend OpenAIEvent.responseDone, 9)] rfl rfl).1

/-- A single event that is not a caller finish event leaves a recorded
(JS-truthy) caller `speechStartedAt` untouched. -/
lemma step_preserves_caller_speechStart (v : Nat) (hv : v ≠ 0) (s : InterceptorState)
    (p : Event × Nat) (hs : s.caller.speechStartTimestamp = some v)
    (hnf : isCallerFinishEv p.1 = false) :
    (step s p).1.caller.speechStartTimestamp = some v := by
  obtain ⟨e, t⟩ := p
  cases e with
  | callerMedia payload =>
      have ht : truthy (some v) = true := by simp [truthy, hv]
      simp only [step, translateAndForwardCallerAudio, hs, ht]
      (repeat' split) <;> simp_all
  | agentMedia payload =>
      simp only [step, translateAndForwardAgentAudio]
      (repeat' split) <;> simp [hs]
  | callerBackend ev =>
      cases ev <;> simp_all [step, handleCallerOpenAIMessage, handleCallerFinish,
        isCallerFinishEv]
  | agentBackend ev =>
      cases ev <;> simp [step, handleAgentOpenAIMessage, handleAgentFinish, hs]

/-- A single event that is not an agent finish event leaves a recorded
(JS-truthy) agent `speechStartedAt` untouched. -/
lemma step_preserves_agent_speechStart (v : Nat) (hv : v ≠ 0) (s : InterceptorState)
    (p : Event × Nat) (hs : s.agent.speechStartTimestamp = some v)
    (hnf : isAgentFinishEv p.1 = false) :
    (step s p).1.agent.speechStartTimestamp = some v := by
  obtain ⟨e, t⟩ := p
  cases e with
  | callerMedia payload =>
      simp only [step, translateAndForwardCallerAudio]
      exact hs
  | agentMedia payload =>
      have ht : truthy (some v) = true := by simp [truthy, hv]
      simp only [step, translateAndForwardAgentAudio, hs, ht]
      (repeat' split) <;> simp_all
  | callerBackend ev =>
      cases ev <;> simp [step, handleCallerOpenAIMessage, handleCallerFinish, hs]
  | agentBackend ev =>
      cases ev <;> simp_all [step, handleAgentOpenAIMessage, handleAgentFinish,
        isAgentFinishEv]

/-- A finish-free event sequence preserves a recorded caller
`speechStartedAt`. -/
lemma foldEvents_preserves_caller_speechStart (v : Nat) (hv : v ≠ 0)
    (evs : List (Event × Nat)) :
    ∀ s : InterceptorState, s.caller.speechStartTimestamp = some v →
      (∀ p ∈ evs, isCallerFinishEv p.1 = false) →
      (foldEvents s evs).caller.speechStartTimestamp = some v := by
  induction evs with
  | nil =>
      intro s hs _
      exact hs
  | cons p rest ih =>
      intro s hs hnf
      simp only [foldEvents]
      exact ih _ (step_preserves_caller_speechStart v hv s p hs (hnf p (by simp)))
        (fun q hq => hnf q (by simp [hq]))

/-- A finish-free event sequence preserves a recorded agent
`speechStartedAt`. -/
lemma foldEvents_preserves_agent_speechStart (v : Nat) (hv : v ≠ 0)
    (evs : List (Event × Nat)) :
    ∀ s : InterceptorState, s.agent.speechStartTimestamp = some v →
      (∀ p ∈ evs, isAgentFinishEv p.1 = false) →
      (foldEvents s evs).agent.speechStartTimestamp = some v := by
  induction evs with
  | nil =>
      intro s hs _
      exact hs
  | cons p rest ih =>
      intro s hs hnf
      simp only [foldEvents]
      exact ih _ (step_preserves_agent_speechStart v hv s p hs (hnf p (by simp)))
        (fun q hq => hnf q (by simp [hq]))

/-- C1: handling `speech_stopped` only appends a latency sample and sends an
input-buffer clear — it leaves `speechStartedAt` untouched — and across any
event sequence free of that leg's finish events (in particular one where
`speech_stopped` precedes `response.created` and the translated chunks), a
recorded `speechStartedAt` keeps the value set before `speech_stopped`. -/
theorem speechStartedAt_persistence (s : InterceptorState) (eid : String) (now : Nat)
    (evs : List (Event × Nat)) (v : Nat) :
    ((handleCallerOpenAIMessage s (.speechStopped eid) now).1
        = { s with caller := { s.caller with
              messages := s.caller.messages ++
                [{ message_id := eid, first_audio_buffer_add_time := none,
                    vad_speech_stopped_time := now }] } }
      ∧ (handleCallerOpenAIMessage s (.speechStopped eid) now).2
        = if s.callerOpenAIOpen then [Action.openAIClear Leg.caller] else [])
    ∧ ((handleAgentOpenAIMessage s (.speechStopped eid) now).1
        = { s with agent := { s.agent with
              messages := s.agent.messages ++
                [{ message_id := eid, first_audio_buffer_add_time := none,
                    vad_speech_stopped_time := now }] } }
      ∧ (handleAgentOpenAIMessage s (.speechStopped eid) now).2
        = if s.agentOpenAIOpen then [Action.openAIClear Leg.agent] else [])
    ∧ (v ≠ 0 → s.caller.speechStartTimestamp = some v →
        (∀ p ∈ evs, isCallerFinishEv p.1 = false) →
        (foldEvents s evs).caller.speechStartTimestamp = some v)
    ∧ (v ≠ 0 → s.agent.speechStartTimestamp = some v →
        (∀ p ∈ evs, isAgentFinishEv p.1 = false) →
        (foldEvents s evs).agent.speechStartTimestamp = some v) := by
  refine ⟨⟨rfl, rfl⟩, ⟨rfl, rfl⟩, ?_, ?_⟩
  · intro hv hs hnf
    exact foldEvents_preserves_caller_speechStart v hv evs s hs hnf
  · intro hv hs hnf
    exact foldEvents_preserves_agent_speechStart v hv evs s hs hnf

/-- Witness for C1: caller `speechStartedAt = 500`; then `speech_stopped`,
`response.created` and a translated chunk arrive, and the value survives. -/
theorem speechStartedAt_persistence_witness :
    (foldEvents
        { initState true true true with
            caller := { initLegState with speechStartTimestamp := some 500 } }
        [(Event.callerBackend (OpenAIEvent.speechStopped "evt7"), 1000),
          (Event.callerBackend (OpenAIEvent.responseCreated (some "r9")), 1050),
          (Event.callerBackend (OpenAIEvent.audioDelta [1, 2, 3]), 1300)]
      ).caller.speechStartTimestamp = some 500 :=
  (speechStartedAt_persistence
      { initState true true true with
          caller := { initLegState with speechStartTimestamp := some 500 } }
      "x" 0
      [(Event.callerBackend (OpenAIEvent.speechStopped "evt7"), 1000),
        (Event.callerBackend (OpenAIEvent.responseCreated (some "r9")), 1050),
        (Event.callerBackend (OpenAIEvent.audioDelta [1, 2, 3]), 1300)]
      500).2.2.1 (by decide) rfl (by decide)

/-- Listener-free transports dispatch nothing but stop invocations, and stay
listener-free. -/
lemma foldFrames_no_listener (st : TransportState)
    (hm : st.onMediaCbs = []) (hst : st.onStartCbs = []) (hc : st.onConnectedCbs = [])
    (frames : List Frame) :
    (∀ inv ∈ (foldFrames st frames).2, isStopInv inv = true)
    ∧ (foldFrames st frames).1.onMediaCbs = []
    ∧ (foldFrames st frames).1.onStartCbs = []
    ∧ (foldFrames st frames).1.onConnectedCbs = [] := by
  induction frames generalizing st with
  | nil => simp [foldFrames, hm, hst, hc]
  | cons f rest ih =>
      cases f with
      | connected =>
          simpa [foldFrames, handleTransportFrame, hc] using ih st hm hst hc
      | start sid fromParam =>
          simpa [foldFrames, handleTransportFrame, hst] using
            ih { st with streamSid := some sid } hm hst hc
      | media payload =>
          simpa [foldFrames, handleTransportFrame, hm] using ih st hm hst hc
      | stop =>
          have hrest := ih { st with onMediaCbs := [], onStartCbs := [], onConnectedCbs := [] }
            rfl rfl rfl
          refine ⟨?_, hrest.2.1, hrest.2.2.1, hrest.2.2.2⟩
          intro inv hinv
          simp only [foldFrames, handleTransportFrame, List.mem_append] at hinv
          rcases hinv with h | h
          · rcases List.mem_map.mp h with ⟨i, -, hi⟩
            rw [← hi]
            rfl
          · exact hrest.1 inv h
      | mark =>
          simpa [foldFrames, handleTransportFrame] using ih st hm hst hc
      | unknown =>
          simpa [foldFrames, handleTransportFrame] using ih st hm hst hc

/-- C9: a `stop` frame clears the media/start/connected listener lists and
invokes exactly the stop listeners, each receiving the transport's current
caller-identifying `from` value — which the route's start handler captured
from the start frame's parameters — and from then on no media, start or
connected listener is ever invoked again, whatever frames follow. -/
theorem streamStop_clears_listeners (st : TransportState) (f : String)
    (frames : List Frame) (hfrom : st.from' = some f) :
    ((handleTransportFrame st Frame.stop).1.onMediaCbs = []
      ∧ (handleTransportFrame st Frame.stop).1.onStartCbs = []
      ∧ (handleTransportFrame st Frame.stop).1.onConnectedCbs = []
      ∧ (handleTransportFrame st Frame.stop).2
          = st.onStopCbs.map fun i => Invocation.stopCb i (some f))
    ∧ (∀ (st0 : TransportState) (g : String), g ≠ "" →
        (routeOnStart st0 (some g)).from' = some g)
    ∧ (∀ inv ∈ (foldFrames (handleTransportFrame st Frame.stop).1 frames).2,
        isStopInv inv = true) := by
  refine ⟨⟨rfl, rfl, rfl, by simp [handleTransportFrame, hfrom]⟩, ?_, ?_⟩
  · intro st0 g hg
    simp [routeOnStart, hg]
  · exact (foldFrames_no_listener _ rfl rfl rfl frames).1

/-- Witness for C9: a transport with registered listeners and a captured
`from` value processes a stop frame followed by further media frames. -/
theorem streamStop_clears_listeners_witness :
    ((handleTransportFrame
        { streamSid := some "MZ1", from' := some "+4512345678",
          onStartCbs := [0], onConnectedCbs := [1], onMediaCbs := [2, 3], onStopCbs := [4] }
        Frame.stop).1.onMediaCbs = []
      ∧ (handleTransportFrame
        { streamSid := some "MZ1", from' := some "+4512345678",
          onStartCbs := [0], onConnectedCbs := [1], onMediaCbs := [2, 3], onStopCbs := [4] }
        Frame.stop).1.onStartCbs = []
      ∧ (handleTransportFrame
        { streamSid := some "MZ1", from' := some "+4512345678",
          onStartCbs := [0], onConnectedCbs := [1], onMediaCbs := [2, 3], onStopCbs := [4] }
        Frame.stop).1.onConnectedCbs = []
      ∧ (handleTransportFrame
        { streamSid := some "MZ1", from' := some "+4512345678",
          onStartCbs := [0], onConnectedCbs := [1], onMediaCbs := [2, 3], onStopCbs := [4] }
        Frame.stop).2
          = [4].map fun i => Invocation.stopCb i (some "+4512345678"))
    ∧ (∀ (st0 : TransportState) (g : String), g ≠ "" →
        (routeOnStart st0 (some g)).from' = some g)
    ∧ (∀ inv ∈ (foldFrames (handleTransportFrame
        { streamSid := some "MZ1", from' := some "+4512345678",
          onStartCbs := [0], onConnectedCbs := [1], onMediaCbs := [2, 3], onStopCbs := [4] }
        Frame.stop).1 [Frame.media [7, 7], Frame.connected, Frame.stop]).2,
        isStopInv inv = true) :=
  streamStop_clears_listeners
    { streamSid := some "MZ1", from' := some "+4512345678",
      onStartCbs := [0], onConnectedCbs := [1], onMediaCbs := [2, 3], onStopCbs := [4] }
    "+4512345678" [Frame.media [7, 7], Frame.connected, Frame.stop] rfl

end LiveTranslation
